import Mathlib

/-!
Verification of the table-reconstruction and normalization pipeline of the
IDX 5%-shareholders scraper (`src/pdf_parser.py`, function
`parse_shareholder_pdf`).

The pipeline is shallowly embedded: each pandas / Python operation used by
the source is translated into an executable Lean function over explicit
lists of nullable text cells.  Machine-level details that the source relies
on are modelled as follows:

* Python `None` and `numpy.nan` are distinct `Cell` constructors, since
  `astype(str)` renders them differently (`"None"` vs `"nan"`).
* `pd.DataFrame(rows, columns=h)` pads ragged rows with `None` up to the
  maximal row width and raises `ValueError` exactly when that width differs
  from `len(h)`; the error records the numbers printed by the source's
  diagnostic (header length, data width, first-row length).
* `pd.to_numeric(..., errors="coerce").fillna(0)` is modelled by a total
  decimal-literal parser into `ℚ`; unparseable text (and `"nan"`) becomes
  `0` after `fillna`.  Non-finite literals are out of scope of the model.
* Uncaught Python exceptions (`NameError` on the never-assigned
  `final_header`, `IndexError` from `perc_cols[-2]` and from out-of-range
  negative column indices) are explicit `PyError` values.
* Column lookups are by label; the model applies label-based operations at
  every position carrying the label, which coincides with pandas whenever
  column names are unique (the situation in every run of the source).
-/

/-! ### Python string primitives -/

/-- Characters removed by Python `str.strip()` (ASCII whitespace). -/
def isPySpace (c : Char) : Bool :=
  c = ' ' || c = '\t' || c = '\n' || c = '\r' || c = '\x0b' || c = '\x0c'

/-- Python `str.strip()`. -/
def pyStrip (s : String) : String :=
  String.mk (((s.toList.dropWhile isPySpace).reverse.dropWhile isPySpace).reverse)

/-- ASCII upper-casing of one character, as `str.upper()` acts on the
ASCII range (the only range the source's header text uses). -/
def upChar (c : Char) : Char :=
  if 'a' ≤ c ∧ c ≤ 'z' then Char.ofNat (c.toNat - 32) else c

/-- Python `str.upper()` on ASCII text. -/
def pyUpper (s : String) : String := String.mk (s.toList.map upChar)

/-- `listStarts n h` : the list `n` is an initial segment of `h`. -/
def listStarts : List Char → List Char → Bool
  | [], _ => true
  | _ :: _, [] => false
  | a :: as, b :: bs => a == b && listStarts as bs

/-- `listHasSub n h` : `n` occurs as a contiguous run inside `h`. -/
def listHasSub (needle : List Char) : List Char → Bool
  | [] => listStarts needle []
  | c :: t => listStarts needle (c :: t) || listHasSub needle t

/-- Python `needle in hay` on strings. -/
def pyIn (needle hay : String) : Bool := listHasSub needle.toList hay.toList

/-- Python `str.replace(old, "")` for a single-character `old`. -/
def removeChar (ch : Char) (s : String) : String :=
  String.mk (s.toList.filter (fun c => !(c == ch)))

/-! ### The date regex `\d{1,2}-[A-Z]{3}-\d{4}`

`re.search` scans start positions left to right; at each position the
greedy `\d{1,2}` first tries two digits, then one. -/

/-- Match `\d{2}-[A-Z]{3}-\d{4}` at the head of the character list. -/
def dateMatchTwo : List Char → Option (List Char)
  | a :: b :: c :: m1 :: m2 :: m3 :: c2 :: y1 :: y2 :: y3 :: y4 :: _ =>
    if a.isDigit && b.isDigit && c == '-' && m1.isUpper && m2.isUpper && m3.isUpper
        && c2 == '-' && y1.isDigit && y2.isDigit && y3.isDigit && y4.isDigit then
      some [a, b, c, m1, m2, m3, c2, y1, y2, y3, y4]
    else none
  | _ => none

/-- Match `\d{1}-[A-Z]{3}-\d{4}` at the head of the character list. -/
def dateMatchOne : List Char → Option (List Char)
  | a :: c :: m1 :: m2 :: m3 :: c2 :: y1 :: y2 :: y3 :: y4 :: _ =>
    if a.isDigit && c == '-' && m1.isUpper && m2.isUpper && m3.isUpper
        && c2 == '-' && y1.isDigit && y2.isDigit && y3.isDigit && y4.isDigit then
      some [a, c, m1, m2, m3, c2, y1, y2, y3, y4]
    else none
  | _ => none

/-- Try the greedy two-digit alternative first, then the one-digit one. -/
def dateMatchAt (cs : List Char) : Option (List Char) :=
  match dateMatchTwo cs with
  | some m => some m
  | none => dateMatchOne cs

/-- Leftmost match of the date pattern, as `re.search(...).group(1)`. -/
def searchDateChars : List Char → Option String
  | [] => none
  | c :: t =>
    match dateMatchAt (c :: t) with
    | some m => some (String.mk m)
    | none => searchDateChars t

/-- `re.search(r"(\d{1,2}-[A-Z]{3}-\d{4})", s)` returning the matched text. -/
def searchDate (s : String) : Option String := searchDateChars s.toList

/-! ### Header reconstruction (`final_header` loop of `parse_shareholder_pdf`) -/

/-- `str(cell or "").strip()` applied to one nullable header cell. -/
def rawCellText (c : Option String) : String := pyStrip (c.getD "")

/-- The multi-line clean-up: take the last line; if that is empty after
stripping and there is more than one line, take the one before it. -/
def lastLinePart (raw : String) : String :=
  if pyIn "\n" raw then
    let parts := raw.splitOn "\n"
    let h := pyStrip (parts.getLastD "")
    if h = "" && parts.length > 1 then pyStrip (parts.getD (parts.length - 2) "")
    else h
  else raw

/-- The date search the source performs on one header cell: first on the
upper-cased cleaned text, then on the upper-cased raw text. -/
def headerDateOf (c : Option String) : Option String :=
  let raw_h := rawCellText c
  let h := lastLinePart raw_h
  match searchDate (pyUpper h) with
  | some d => some d
  | none => searchDate (pyUpper raw_h)

/-- The three canonical column names a date group expands to. -/
def dateCols (d : String) : List String :=
  ["Kepemilikan Per " ++ d ++ " - Jumlah Saham",
   "Kepemilikan Per " ++ d ++ " - Saham Gabungan Per Investor",
   "Kepemilikan Per " ++ d ++ " - Persentase Kepemilikan Per Investor (%)"]

/-- How many raw cells beyond the current one the date group consumes:
the next cell only if it is empty after stripping, and then the one after
it only if that is also empty (`skip` starts at 1 in the source; this is
`skip - 1`). -/
def extraSkip : List (Option String) → Nat
  | [] => 0
  | c1 :: rest2 =>
    if rawCellText c1 = "" then
      match rest2 with
      | [] => 1
      | c2 :: _ => if rawCellText c2 = "" then 2 else 1
    else 0

/-- The `final_header` reconstruction loop, driven by a fuel counter (the
loop consumes at least one raw cell per iteration, so `cells.length` fuel
always suffices): date-bearing cells expand to a triplet and consume
`1 + extraSkip` raw cells; other non-empty cells are emitted verbatim;
other empty cells are dropped. -/
def finalHeaderGo : Nat → List (Option String) → List String
  | 0, _ => []
  | _, [] => []
  | fuel + 1, c :: rest =>
    match headerDateOf c with
    | some d => dateCols d ++ finalHeaderGo fuel (rest.drop (extraSkip rest))
    | none =>
      let h := lastLinePart (rawCellText c)
      (if h = "" then [] else [h]) ++ finalHeaderGo fuel rest

/-- The reconstructed canonical header of one raw header row. -/
def finalHeaderOf (cells : List (Option String)) : List String :=
  finalHeaderGo cells.length cells

/-! ### Page scanning -/

/-- One page's `extract_table()` result: `none` models no table found. -/
abbrev Table := List (List (Option String))

abbrev Page := Option Table

/-- One iteration of the page loop: a page with no table (or an empty
table, both falsy) is skipped; otherwise `final_header` is recomputed from
`table[0]` and `table[2:]` is appended to the accumulated rows. -/
def scanStep (st : Option (List String) × List (List (Option String))) (p : Page) :
    Option (List String) × List (List (Option String)) :=
  match p with
  | none => st
  | some t =>
    if t.isEmpty then st
    else (some (finalHeaderOf (t.headD [])), st.2 ++ t.drop 2)

/-- The extraction loop over `pdf.pages[1:]` (first page skipped),
producing the last assigned `final_header` (if any) and `all_rows`. -/
def scanPages (pages : List Page) : Option (List String) × List (List (Option String)) :=
  (pages.drop 1).foldl scanStep (none, [])

/-! ### Cells, DataFrames and Python-level errors -/

/-- A pandas cell value as the pipeline sees it. -/
inductive Cell where
  /-- Python `None`. -/
  | pyNone : Cell
  /-- `numpy.nan` (a missing float). -/
  | na : Cell
  /-- a text value. -/
  | txt (v : String) : Cell
  /-- a numeric value. -/
  | num (v : ℚ) : Cell
deriving DecidableEq, Repr

/-- An in-memory DataFrame: ordered column labels plus rows of cells. -/
structure DataFrame where
  cols : List String
  rows : List (List Cell)
deriving DecidableEq, Repr

/-- The uncaught Python exceptions the pipeline can surface. -/
inductive PyError where
  /-- `ValueError: {passed} columns passed, passed data had {width} columns`
  from DataFrame creation, together with the first row length printed by
  the source's own diagnostic before re-raising. -/
  | valueErrorColumns (passed width firstRowLen : Nat) : PyError
  /-- `NameError`: `final_header` referenced but never assigned (no page
  carried a table). -/
  | nameErrorFinalHeader : PyError
  /-- `IndexError: list index out of range` from `perc_cols[-2]`. -/
  | indexErrorListIndex : PyError
  /-- `IndexError` from `df.columns[i]` with `i < -len(columns)`. -/
  | indexErrorColumns : PyError
deriving DecidableEq, Repr

/-- The maximal row width used by the DataFrame constructor. -/
def maxWidth (rows : List (List (Option String))) : Nat :=
  (rows.map List.length).foldl max 0

/-- A raw nullable text cell as a DataFrame cell. -/
def toCell : Option String → Cell
  | none => Cell.pyNone
  | some v => Cell.txt v

/-- Pad one raw row with `None` cells up to the target width. -/
def padRow (w : Nat) (r : List (Option String)) : List Cell :=
  r.map toCell ++ List.replicate (w - r.length) Cell.pyNone

/-- `pd.DataFrame(rows, columns=cols)`: an empty row list yields an empty
frame; otherwise ragged rows are padded with `None` to the maximal width,
and a `ValueError` is raised exactly when that width differs from the
column count. -/
def mkDataFrame (rows : List (List (Option String))) (cols : List String) :
    Except PyError DataFrame :=
  if rows.isEmpty then .ok ⟨cols, []⟩
  else if maxWidth rows = cols.length then
    .ok ⟨cols, rows.map (padRow cols.length)⟩
  else
    .error (.valueErrorColumns cols.length (maxWidth rows) (rows.headD []).length)

/-- A missing value in the pandas sense (`None` or `nan`). -/
def isMissing : Cell → Bool
  | Cell.pyNone => true
  | Cell.na => true
  | _ => false

/-- First position of a label among the columns. -/
def colIdx (cols : List String) (name : String) : Option Nat :=
  cols.findIdx? (fun c => c == name)

/-- `df = df[df["No"] != "No"]` (kept whenever the label is absent). -/
def dropHeaderRows (df : DataFrame) : DataFrame :=
  match colIdx df.cols "No" with
  | none => df
  | some i => ⟨df.cols, df.rows.filter (fun r => !(r.getD i Cell.pyNone == Cell.txt "No"))⟩

/-- `Series.ffill` on column `i`, carrying the last non-missing value. -/
def ffillGo (i : Nat) (carry : Option Cell) : List (List Cell) → List (List Cell)
  | [] => []
  | r :: rest =>
    let v := r.getD i Cell.pyNone
    if isMissing v then
      match carry with
      | some prev => r.set i prev :: ffillGo i (some prev) rest
      | none => r :: ffillGo i none rest
    else r :: ffillGo i (some v) rest

/-- Forward-fill column `i` of a row list. -/
def ffillCol (i : Nat) (rows : List (List Cell)) : List (List Cell) :=
  ffillGo i none rows

/-- `df[name] = df[name].ffill()` guarded by `name in df.columns`. -/
def ffillNamed (df : DataFrame) (name : String) : DataFrame :=
  match colIdx df.cols name with
  | none => df
  | some i => ⟨df.cols, ffillCol i df.rows⟩

/-- The grouping columns the source forward-fills. -/
def cols_to_fill : List String := ["No", "Nama Emiten", "Nama Pemegang Saham", "Kebangsaan"]

/-- The two forward-fill blocks of the source: `"No"` first, then the
remaining grouping columns in order. -/
def ffillAll (df : DataFrame) : DataFrame :=
  (cols_to_fill.filter (fun c => !(c == "No"))).foldl ffillNamed (ffillNamed df "No")

/-- Drop every column whose label is in `names` (with the matching cell of
each row), as repeated `df.drop(columns=[...])` calls do. -/
def dropColsByName (df : DataFrame) (names : List String) : DataFrame :=
  ⟨df.cols.filter (fun c => !(names.contains c)),
   df.rows.map (fun r =>
     ((df.cols.zip r).filter (fun p => !(names.contains p.1))).map Prod.snd)⟩

/-- `astype(str)` on one cell (`None` → `"None"`, `nan` → `"nan"`).  The
numeric branch is unreachable in the pipeline (cleaning precedes numeric
coercion) and is never produced by it. -/
def pyAstypeStr : Cell → String
  | Cell.pyNone => "None"
  | Cell.na => "nan"
  | Cell.txt v => v
  | Cell.num _ => ""

/-- The per-cell string cleaning chain: `astype(str).str.strip()`, then
`.replace(["None", "none", ""], nan)`, then `.str.replace(",", "")` and
`.str.replace("%", "")` (string methods skip the already-missing cells). -/
def cleanCell (c : Cell) : Cell :=
  match c with
  | Cell.num v => Cell.num v
  | _ =>
    let s1 := pyStrip (pyAstypeStr c)
    if s1 = "None" || s1 = "none" || s1 = "" then Cell.na
    else Cell.txt (removeChar '%' (removeChar ',' s1))

/-- The "Clean string data" loop over every column. -/
def cleanDF (df : DataFrame) : DataFrame :=
  ⟨df.cols, df.rows.map (fun r => r.map cleanCell)⟩

/-- `pd.to_numeric` on decimal literals: optional sign, digits with an
optional fractional part, optional exponent.  `none` models the values the
coercion turns into `NaN`. -/
def digitsVal (ds : List Char) : Nat :=
  ds.foldl (fun a c => a * 10 + (c.toNat - 48)) 0

/-- The rational `m * 10 ^ e` (built with integer arithmetic only). -/
def scaled (m : Int) (e : Int) : ℚ :=
  if 0 ≤ e then mkRat (m * (10 : Int) ^ e.toNat) 1
  else mkRat m ((10 : Nat) ^ (-e).toNat)

def parseNumeric (s : String) : Option ℚ :=
  let cs := s.toList
  let signed : Int × List Char :=
    match cs with
    | '-' :: t => (-1, t)
    | '+' :: t => (1, t)
    | t => (1, t)
  let ip := signed.2.takeWhile Char.isDigit
  let afterIp := signed.2.dropWhile Char.isDigit
  let fpPair : List Char × List Char :=
    match afterIp with
    | '.' :: t => (t.takeWhile Char.isDigit, t.dropWhile Char.isDigit)
    | t => ([], t)
  let fp := fpPair.1
  if ip.isEmpty && fp.isEmpty then none
  else
    let m : Int := signed.1 * (digitsVal (ip ++ fp) : Int)
    match fpPair.2 with
    | [] => some (scaled m (-(fp.length : Int)))
    | e :: t =>
      if e == 'e' || e == 'E' then
        let esigned : Int × List Char :=
          match t with
          | '-' :: t2 => (-1, t2)
          | '+' :: t2 => (1, t2)
          | t2 => (1, t2)
        let ed := esigned.2.takeWhile Char.isDigit
        let rest := esigned.2.dropWhile Char.isDigit
        if ed.isEmpty || !rest.isEmpty then none
        else some (scaled m (esigned.1 * (digitsVal ed : Int) - (fp.length : Int)))
      else none

/-- `pd.to_numeric(col, errors="coerce").fillna(0)` on one cell. -/
def coerceCell (c : Cell) : Cell :=
  match c with
  | Cell.num v => Cell.num v
  | Cell.txt v =>
    match parseNumeric v with
    | some q => Cell.num q
    | none => Cell.num 0
  | _ => Cell.num 0

/-- `df[name] = pd.to_numeric(df[name], errors="coerce").fillna(0)`,
applied at every position carrying the label. -/
def coerceNamed (df : DataFrame) (name : String) : DataFrame :=
  ⟨df.cols, df.rows.map (fun r =>
    (df.cols.zip r).map (fun p => if p.1 == name then coerceCell p.2 else p.2))⟩

/-- `range(a, b)` over integers. -/
def pyRangeInt (a b : Int) : List Int :=
  (List.range (b - a).toNat).map (fun k : Nat => a + (k : Int))

/-- Python/pandas positional indexing: negative indices wrap once; indices
below `-len` raise `IndexError`. -/
def resolveIdx (len : Nat) (i : Int) : Except PyError Nat :=
  if 0 ≤ i ∧ i < (len : Int) then .ok i.toNat
  else if -(len : Int) ≤ i ∧ i < 0 then .ok (i + len).toNat
  else .error .indexErrorColumns

/-- The "Convert numeric columns by index" block: skipped for an empty
frame; otherwise every column at positions `range(len - 7, len)` (as
pandas resolves them) is numerically coerced in order. -/
def coerceLast7 (df : DataFrame) : Except PyError DataFrame :=
  if df.rows.isEmpty then .ok df
  else
    (pyRangeInt ((df.cols.length : Int) - 7) df.cols.length).foldlM
      (fun d i => do
        let j ← resolveIdx d.cols.length i
        pure (coerceNamed d (d.cols.getD j "")))
      df

/-- The substring that identifies an ownership-percentage column. -/
def percMarker : String := "Persentase Kepemilikan Per Investor"

/-- The `perc_cols` selection. -/
def percColsOf (cols : List String) : List String :=
  cols.filter (fun c => pyIn percMarker c)

/-- `prev_col, curr_col = perc_cols[-2], perc_cols[-1]`; fewer than two
entries raise `IndexError`. -/
def selectPercPair (cols : List String) : Except PyError (String × String) :=
  let pc := percColsOf cols
  if 2 ≤ pc.length then .ok (pc.getD (pc.length - 2) "", pc.getD (pc.length - 1) "")
  else .error .indexErrorListIndex

/-- `df.replace(["", None, "None"], np.nan)` on one cell. -/
def replaceBlankCell (c : Cell) : Cell :=
  match c with
  | Cell.txt v => if v = "" || v = "None" then Cell.na else Cell.txt v
  | Cell.pyNone => Cell.na
  | c => c

/-- `df.replace(["", None, "None"], np.nan, inplace=True)`. -/
def replaceBlank (df : DataFrame) : DataFrame :=
  ⟨df.cols, df.rows.map (fun r => r.map replaceBlankCell)⟩

/-- `df.dropna(how="all")`. -/
def dropAllNaRows (df : DataFrame) : DataFrame :=
  ⟨df.cols, df.rows.filter (fun r => !(r.all isMissing))⟩

/-- The descriptive columns dropped early. -/
def addressCols : List String := ["Alamat", "Alamat (Lanjutan)", "Domisili"]

/-- The whole `parse_shareholder_pdf` pipeline over the page tables of one
document.  The return value is the single DataFrame the source returns;
the three `match`es surface the uncaught exceptions (`NameError` on the
unassigned `final_header`, `ValueError` re-raised after the diagnostic
print, `IndexError` from `perc_cols[-2]`). -/
def parse_shareholder_pdf (pages : List Page) : Except PyError DataFrame :=
  match (scanPages pages).1 with
  | none => .error .nameErrorFinalHeader
  | some fh =>
    match mkDataFrame (scanPages pages).2 fh with
    | .error e => .error e
    | .ok df0 =>
      let df1 := cleanDF (dropColsByName (ffillAll (dropHeaderRows df0)) addressCols)
      match coerceLast7 df1 with
      | .error e => .error e
      | .ok df2 =>
        match selectPercPair df2.cols with
        | .error e => .error e
        | .ok pc =>
          let df3 := coerceNamed (coerceNamed df2 pc.1) pc.2
          let df4 := dropColsByName df3 (df3.cols.filter (fun c => pyIn "Unnamed" c))
          .ok (ffillAll (dropHeaderRows (dropAllNaRows (replaceBlank df4))))

/-! ### Derived characterizations used by the claim theorems -/

/-- A page that the loop body actually processes (Python's truthiness of
`table`). -/
def pageHasTable (p : Page) : Bool :=
  match p with
  | none => false
  | some t => !t.isEmpty

/-- The data rows the assembly is expected to accumulate: for each page
after the first, the rows past the first two of its table, in page order. -/
def rowsSpec : List Page → List (List (Option String))
  | [] => []
  | none :: r => rowsSpec r
  | some t :: r => t.drop 2 ++ rowsSpec r

/-- The reconstructed header of the last table-bearing page, if any. -/
def lastTableHeader : List Page → Option (List String)
  | [] => none
  | p :: rest =>
    match lastTableHeader rest with
    | some h => some h
    | none =>
      match p with
      | some t => if t.isEmpty then none else some (finalHeaderOf (t.headD []))
      | none => none

/-- The cell of a frame at row `k`, column `j`. -/
def getCell (df : DataFrame) (k j : Nat) : Cell :=
  (df.rows.getD k []).getD j Cell.na

/-- The column positions pandas actually coerces: `range(len - 7, len)`
after resolving possibly negative indices. -/
def resolvedIdxs (len : Nat) : List Nat :=
  (pyRangeInt ((len : Int) - 7) len).filterMap (fun i => (resolveIdx len i).toOption)

/-- The nearest preceding non-missing value at column `i` (the carry seeds
the scan). -/
def lastNonMissing (i : Nat) (carry : Option Cell) (pre : List (List Cell)) : Option Cell :=
  pre.foldl
    (fun acc r =>
      let v := r.getD i Cell.pyNone
      if isMissing v then acc else some v)
    carry

/-- A rectangular frame: every row has exactly one cell per column. -/
def Rect (df : DataFrame) : Prop :=
  ∀ r ∈ df.rows, r.length = df.cols.length



/-- A benign "no data" outcome: a successful return whose dataset has no
rows. -/
def benignEmpty : Except PyError DataFrame → Bool
  | .ok df => df.rows.isEmpty
  | .error _ => false


/-- Whether a cell holds a numeric value. -/
def isNumC : Cell → Bool
  | Cell.num _ => true
  | _ => false

/-- Numeric coercion applied at a list of column positions in order (the
resolved form of the `range(len - 7, len)` loop). -/
def coerceAtPositions (ps : List Nat) (df : DataFrame) : DataFrame :=
  ps.foldl (fun d p2 => coerceNamed d (d.cols.getD p2 "")) df

/-! ### Concrete documents used to settle the claims -/

/-- A two-date header row with four leading descriptive columns. -/
def C1hdr : List (Option String) :=
  [some "No", some "Nama Emiten", some "Nama Pemegang Saham", some "Kebangsaan",
   some "Kepemilikan Per 01-JAN-2025 x", none, none,
   some "Kepemilikan Per 02-FEB-2025 x", none, none]

/-- Cover page plus one table page: issuer AAAA's percentage changes
between the two dates (5.5 to 6.5), issuer BBBB's does not. -/
def C1doc : List Page :=
  [none,
   some [C1hdr, List.replicate 10 none,
     [some "1", some "AAAA", some "Alice", some "WNI", some "100", some "100",
      some "5.5", some "100", some "100", some "6.5"],
     [some "2", some "BBBB", some "Bob", some "WNA", some "200", some "200",
      some "5.5", some "200", some "200", some "5.5"]]]

/-- The single frame the pipeline returns on `C1doc`. -/
def C1out : DataFrame :=
  ⟨["No", "Nama Emiten", "Nama Pemegang Saham", "Kebangsaan",
    "Kepemilikan Per 01-JAN-2025 - Jumlah Saham",
    "Kepemilikan Per 01-JAN-2025 - Saham Gabungan Per Investor",
    "Kepemilikan Per 01-JAN-2025 - Persentase Kepemilikan Per Investor (%)",
    "Kepemilikan Per 02-FEB-2025 - Jumlah Saham",
    "Kepemilikan Per 02-FEB-2025 - Saham Gabungan Per Investor",
    "Kepemilikan Per 02-FEB-2025 - Persentase Kepemilikan Per Investor (%)"],
   [[Cell.txt "1", Cell.txt "AAAA", Cell.txt "Alice", Cell.num 0, Cell.num 100,
     Cell.num 100, Cell.num (mkRat 11 2), Cell.num 100, Cell.num 100, Cell.num (mkRat 13 2)],
    [Cell.txt "2", Cell.txt "BBBB", Cell.txt "Bob", Cell.num 0, Cell.num 200,
     Cell.num 200, Cell.num (mkRat 11 2), Cell.num 200, Cell.num 200, Cell.num (mkRat 11 2)]]⟩

/-- A seven-column header row (no issuer-name column). -/
def C3hdrA : List (Option String) :=
  [some "No", some "Kepemilikan Per 01-JAN-2025 x", none, none,
   some "Kepemilikan Per 02-FEB-2025 x", none, none]

/-- An eight-column header row (with an issuer-name column). -/
def C3hdrB : List (Option String) :=
  [some "No", some "Nama Emiten", some "Kepemilikan Per 01-JAN-2025 x", none, none,
   some "Kepemilikan Per 02-FEB-2025 x", none, none]

/-- A document whose two table-bearing pages carry different headers. -/
def C3doc : List Page :=
  [none,
   some [C3hdrA, List.replicate 7 none,
     [some "1", some "10", some "10", some "1.0", some "10", some "10", some "2.0"]],
   some [C3hdrB, List.replicate 8 none,
     [some "2", some "CCCC", some "20", some "20", some "3.0", some "20", some "20", some "4.0"]]]

/-- The frame returned on `C3doc`: its schema is the second table-bearing
page's header, and the first page's shorter row is padded. -/
def C3out : DataFrame :=
  ⟨["No", "Nama Emiten", "Kepemilikan Per 01-JAN-2025 - Jumlah Saham",
    "Kepemilikan Per 01-JAN-2025 - Saham Gabungan Per Investor",
    "Kepemilikan Per 01-JAN-2025 - Persentase Kepemilikan Per Investor (%)",
    "Kepemilikan Per 02-FEB-2025 - Jumlah Saham",
    "Kepemilikan Per 02-FEB-2025 - Saham Gabungan Per Investor",
    "Kepemilikan Per 02-FEB-2025 - Persentase Kepemilikan Per Investor (%)"],
   [[Cell.txt "1", Cell.num 10, Cell.num 10, Cell.num 1, Cell.num 10, Cell.num 10,
     Cell.num 2, Cell.num 0],
    [Cell.txt "2", Cell.num 0, Cell.num 20, Cell.num 20, Cell.num 3, Cell.num 20,
     Cell.num 20, Cell.num 4]]⟩

/-- A seven-column header row for the padding counterexample. -/
def C5hdrA : List (Option String) :=
  [some "No", some "Kepemilikan Per 03-MAR-2025 y", none, none,
   some "Kepemilikan Per 04-APR-2025 y", none, none]

/-- An eight-column header row for the padding counterexample. -/
def C5hdrB : List (Option String) :=
  [some "No", some "Nama Emiten", some "Kepemilikan Per 03-MAR-2025 y", none, none,
   some "Kepemilikan Per 04-APR-2025 y", none, none]

/-- A document with a 7-cell data row and an 8-name final schema. -/
def C5doc : List Page :=
  [none,
   some [C5hdrA, List.replicate 7 none,
     [some "1", some "11", some "11", some "1.5", some "11", some "11", some "2.5"]],
   some [C5hdrB, List.replicate 8 none,
     [some "2", some "DDDD", some "21", some "21", some "3.5", some "21", some "21", some "4.5"]]]

/-- The frame returned on `C5doc`: the short row was padded, not rejected. -/
def C5out : DataFrame :=
  ⟨["No", "Nama Emiten", "Kepemilikan Per 03-MAR-2025 - Jumlah Saham",
    "Kepemilikan Per 03-MAR-2025 - Saham Gabungan Per Investor",
    "Kepemilikan Per 03-MAR-2025 - Persentase Kepemilikan Per Investor (%)",
    "Kepemilikan Per 04-APR-2025 - Jumlah Saham",
    "Kepemilikan Per 04-APR-2025 - Saham Gabungan Per Investor",
    "Kepemilikan Per 04-APR-2025 - Persentase Kepemilikan Per Investor (%)"],
   [[Cell.txt "1", Cell.num 11, Cell.num 11, Cell.num (mkRat 3 2), Cell.num 11,
     Cell.num 11, Cell.num (mkRat 5 2), Cell.num 0],
    [Cell.txt "2", Cell.num 0, Cell.num 21, Cell.num 21, Cell.num (mkRat 7 2),
     Cell.num 21, Cell.num 21, Cell.num (mkRat 9 2)]]⟩

/-- A document whose only data row is wider than the schema. -/
def C5wdoc : List Page := [none, some [[some "A"], [none], [some "x", some "y"]]]

/-- A document with one table-bearing page carrying only header rows
(no data rows) and a two-date schema. -/
def C6witDoc : List Page :=
  [none,
   some [[some "Kepemilikan Per 01-JAN-2025 a", none, none,
          some "Kepemilikan Per 02-FEB-2025 b", none, none],
         List.replicate 6 none]]

/-- A ten-column document whose schema has only one percentage column. -/
def C7doc : List Page :=
  [none,
   some [[some "No", some "Nama Emiten", some "Nama Pemegang Saham",
          some "Kepemilikan Per 01-JAN-2025 x", none, none,
          some "ColA", some "ColB", some "ColC", some "ColD"],
     List.replicate 10 none,
     [some "1", some "AAAA", some "Alice", some "10", some "10", some "1.0",
      some "a", some "b", some "c", some "d"]]]

/-- A two-date header row for the forward-fill counterexample. -/
def C9hdr : List (Option String) :=
  [some "No", some "Nama Emiten", some "Nama Pemegang Saham", some "Kebangsaan",
   some "Kepemilikan Per 05-MAY-2025 z", none, none,
   some "Kepemilikan Per 06-JUN-2025 z", none, none]

/-- A document whose first data row has no issuer name (and no prior row
to fill it from). -/
def C9doc : List Page :=
  [none,
   some [C9hdr, List.replicate 10 none,
     [some "1", none, some "Alice", some "WNI", some "100", some "100",
      some "5.5", some "100", some "100", some "6.5"],
     [some "2", some "BBBB", some "Bob", some "WNA", some "200", some "200",
      some "5.5", some "200", some "200", some "5.5"]]]

/-- The frame returned on `C9doc`: the first retained row keeps a missing
issuer name. -/
def C9out : DataFrame :=
  ⟨["No", "Nama Emiten", "Nama Pemegang Saham", "Kebangsaan",
    "Kepemilikan Per 05-MAY-2025 - Jumlah Saham",
    "Kepemilikan Per 05-MAY-2025 - Saham Gabungan Per Investor",
    "Kepemilikan Per 05-MAY-2025 - Persentase Kepemilikan Per Investor (%)",
    "Kepemilikan Per 06-JUN-2025 - Jumlah Saham",
    "Kepemilikan Per 06-JUN-2025 - Saham Gabungan Per Investor",
    "Kepemilikan Per 06-JUN-2025 - Persentase Kepemilikan Per Investor (%)"],
   [[Cell.txt "1", Cell.na, Cell.txt "Alice", Cell.num 0, Cell.num 100,
     Cell.num 100, Cell.num (mkRat 11 2), Cell.num 100, Cell.num 100, Cell.num (mkRat 13 2)],
    [Cell.txt "2", Cell.txt "BBBB", Cell.txt "Bob", Cell.num 0, Cell.num 200,
     Cell.num 200, Cell.num (mkRat 11 2), Cell.num 200, Cell.num 200, Cell.num (mkRat 11 2)]]⟩


/-! ### Lemmas on header reconstruction -/

/-- The fuel argument is irrelevant once it dominates the cell count. -/
theorem finalHeaderGo_fuel :
    ∀ (f1 f2 : Nat) (cells : List (Option String)),
      cells.length ≤ f1 → cells.length ≤ f2 →
      finalHeaderGo f1 cells = finalHeaderGo f2 cells := by
  intro f1
  induction f1 with
  | zero =>
    intro f2 cells h1 _
    have : cells = [] := List.length_eq_zero.mp (Nat.le_zero.mp h1)
    subst this
    cases f2 <;> rfl
  | succ f ih =>
    intro f2 cells h1 h2
    cases cells with
    | nil => cases f2 <;> rfl
    | cons c rest =>
      cases f2 with
      | zero => simp at h2
      | succ g =>
        simp only [List.length_cons, Nat.succ_le_succ_iff] at h1 h2
        simp only [finalHeaderGo]
        cases hd : headerDateOf c with
        | some d =>
          have hlen : (rest.drop (extraSkip rest)).length ≤ rest.length := by
            simp only [List.length_drop]; omega
          rw [ih g _ (le_trans hlen h1) (le_trans hlen h2)]
        | none => rw [ih g rest h1 h2]

/-- The date branch of the loop continues after dropping exactly
`extraSkip` further cells. -/
theorem finalHeaderOf_date (c : Option String) (rest : List (Option String))
    (d : String) (hd : headerDateOf c = some d) :
    finalHeaderOf (c :: rest) = dateCols d ++ finalHeaderOf (rest.drop (extraSkip rest)) := by
  have hlen : (rest.drop (extraSkip rest)).length ≤ rest.length := by
    simp only [List.length_drop]; omega
  simp only [finalHeaderOf, List.length_cons, finalHeaderGo, hd]
  rw [finalHeaderGo_fuel rest.length (rest.drop (extraSkip rest)).length _ hlen le_rfl]

/-! ### Lemmas on page scanning -/

theorem foldl_scanStep_rows :
    ∀ (ps : List Page) (st : Option (List String) × List (List (Option String))),
      (ps.foldl scanStep st).2 = st.2 ++ rowsSpec ps := by
  intro ps
  induction ps with
  | nil => intro st; simp [rowsSpec]
  | cons p rest ih =>
    intro st
    cases p with
    | none => simp [scanStep, rowsSpec, ih]
    | some t =>
      by_cases ht : t.isEmpty
      · have hdrop : t.drop 2 = [] := by
          have : t = [] := List.isEmpty_iff.mp ht
          simp [this]
        simp [scanStep, ht, rowsSpec, ih, hdrop]
      · simp [scanStep, ht, rowsSpec, ih, List.append_assoc]

theorem foldl_scanStep_header :
    ∀ (ps : List Page) (st : Option (List String) × List (List (Option String))),
      (ps.foldl scanStep st).1 =
        (match lastTableHeader ps with
         | some h => some h
         | none => st.1) := by
  intro ps
  induction ps with
  | nil => intro st; simp [lastTableHeader]
  | cons p rest ih =>
    intro st
    cases hlt : lastTableHeader rest with
    | some h =>
      cases p with
      | none => simp [scanStep, lastTableHeader, ih, hlt]
      | some t =>
        by_cases ht : t.isEmpty <;> simp [scanStep, ht, lastTableHeader, ih, hlt]
    | none =>
      cases p with
      | none => simp [scanStep, lastTableHeader, ih, hlt]
      | some t =>
        by_cases ht : t.isEmpty <;> simp [scanStep, ht, lastTableHeader, ih, hlt]

/-! ### Lemmas on the date-group lookahead -/

theorem extraSkip_le_two : ∀ rest : List (Option String), extraSkip rest ≤ 2 := by
  intro rest
  cases rest with
  | nil => simp [extraSkip]
  | cons c1 r2 =>
    by_cases h1 : rawCellText c1 = ""
    · cases r2 with
      | nil => simp [extraSkip, h1]
      | cons c2 r3 =>
        by_cases h2 : rawCellText c2 = "" <;> simp [extraSkip, h1, h2]
    · simp [extraSkip, h1]

theorem extraSkip_consumed_empty :
    ∀ (rest : List (Option String)) (j : Nat), j < extraSkip rest →
      rawCellText (rest.getD j none) = "" := by
  intro rest j hj
  cases rest with
  | nil => simp [extraSkip] at hj
  | cons c1 r2 =>
    by_cases h1 : rawCellText c1 = ""
    · cases r2 with
      | nil =>
        simp only [extraSkip, h1, if_true] at hj
        interval_cases j
        · simpa using h1
      | cons c2 r3 =>
        by_cases h2 : rawCellText c2 = ""
        · simp only [extraSkip, h1, h2, if_true] at hj
          interval_cases j
          · simpa using h1
          · simpa using h2
        · simp only [extraSkip, h1, h2, if_true, if_false] at hj
          interval_cases j
          · simpa using h1
    · simp [extraSkip, h1] at hj

theorem extraSkip_of_nonempty_head :
    ∀ (c1 : Option String) (r2 : List (Option String)),
      rawCellText c1 ≠ "" → extraSkip (c1 :: r2) = 0 := by
  intro c1 r2 h1
  simp [extraSkip, h1]

/-- `scanStep` leaves the state unchanged on a page without a table. -/
theorem scanStep_no_table (st : Option (List String) × List (List (Option String)))
    (p : Page) (hp : pageHasTable p = false) : scanStep st p = st := by
  cases p with
  | none => rfl
  | some t =>
    have ht : t.isEmpty = true := by
      simpa [pageHasTable] using hp
    simp [scanStep, ht]

/-- C2: whenever the date pattern is found in a raw header cell, exactly
the three canonical column names suffixed with that date are emitted; the
group consumes between 1 and 3 raw columns, each looked-ahead cell being
consumed only if it is empty (a non-empty next cell limits consumption to
1); and the spec's example row expands to exactly the five canonical
names, its date group consuming 3 raw columns. -/
theorem C2_header_date_group_expansion :
    (∀ (c : Option String) (rest : List (Option String)) (d : String),
        headerDateOf c = some d →
        finalHeaderOf (c :: rest) =
          ["Kepemilikan Per " ++ d ++ " - Jumlah Saham",
           "Kepemilikan Per " ++ d ++ " - Saham Gabungan Per Investor",
           "Kepemilikan Per " ++ d ++ " - Persentase Kepemilikan Per Investor (%)"]
            ++ finalHeaderOf (rest.drop (extraSkip rest)))
    ∧ (∀ rest : List (Option String), 1 ≤ 1 + extraSkip rest ∧ 1 + extraSkip rest ≤ 3)
    ∧ (∀ (rest : List (Option String)) (j : Nat), j < extraSkip rest →
        rawCellText (rest.getD j none) = "")
    ∧ (∀ (c1 : Option String) (r2 : List (Option String)),
        rawCellText c1 ≠ "" → extraSkip (c1 :: r2) = 0)
    ∧ finalHeaderOf [some "No", some "Nama Emiten",
        some "Kepemilikan Per 15-DEC-2025 ...", none, none] =
        ["No", "Nama Emiten",
         "Kepemilikan Per 15-DEC-2025 - Jumlah Saham",
         "Kepemilikan Per 15-DEC-2025 - Saham Gabungan Per Investor",
         "Kepemilikan Per 15-DEC-2025 - Persentase Kepemilikan Per Investor (%)"]
    ∧ 1 + extraSkip [none, none] = 3 := by
  refine ⟨?_, ?_, extraSkip_consumed_empty, extraSkip_of_nonempty_head, by rfl, by rfl⟩
  · intro c rest d hd
    rw [finalHeaderOf_date c rest d hd]; rfl
  · intro rest
    have h := extraSkip_le_two rest
    omega

/-- Witness for `C2_header_date_group_expansion` at a concrete date cell
followed by two empty cells. -/
theorem C2_header_date_group_expansion_witness :
    headerDateOf (some "Kepemilikan Per 15-DEC-2025 ...") = some "15-DEC-2025" ∧
    finalHeaderOf [some "Kepemilikan Per 15-DEC-2025 ...", none, none] =
      ["Kepemilikan Per 15-DEC-2025 - Jumlah Saham",
       "Kepemilikan Per 15-DEC-2025 - Saham Gabungan Per Investor",
       "Kepemilikan Per 15-DEC-2025 - Persentase Kepemilikan Per Investor (%)"]
        ++ finalHeaderOf (([none, none] : List (Option String)).drop
            (extraSkip [none, none])) :=
  ⟨rfl, C2_header_date_group_expansion.1 _ [none, none] "15-DEC-2025" rfl⟩

/-- C3 counterexample: on `C3doc` the schema of the returned dataset is
the reconstruction of the second table-bearing page's header, which
differs from the first table-bearing page's reconstruction — so the
schema is not fixed once from the first table-bearing page. -/
theorem C3_schema_counterexample :
    parse_shareholder_pdf C3doc = Except.ok C3out ∧
    C3out.cols = finalHeaderOf C3hdrB ∧
    finalHeaderOf C3hdrA ≠ finalHeaderOf C3hdrB ∧
    pageHasTable (C3doc.getD 1 none) = true ∧
    (C3doc.getD 1 none) = some [C3hdrA, List.replicate 7 none,
      [some "1", some "10", some "10", some "1.0", some "10", some "10", some "2.0"]] ∧
    (scanPages C3doc).1 = some (finalHeaderOf C3hdrB) :=
  ⟨by rfl, by rfl, by decide, by rfl, by rfl, by rfl⟩

/-- C3 amended: the canonical schema is reconstructed from the header row
of every table-bearing page in turn, and the one the dataset is aligned
to is that of the last table-bearing page. -/
theorem C3_schema_last_table_page :
    ∀ pages : List Page, (scanPages pages).1 = lastTableHeader (pages.drop 1) := by
  intro pages
  rw [scanPages, foldl_scanStep_header]
  cases lastTableHeader (pages.drop 1) <;> rfl

/-- C8: the first page contributes nothing to row assembly; the assembled
rows are, page by page in order, the rows after the first two rows of
each table-bearing page; a page without a table is skipped with the scan
state unchanged. -/
theorem C8_row_assembly :
    (∀ (p p' : Page) (rest : List Page), scanPages (p :: rest) = scanPages (p' :: rest))
    ∧ (∀ pages : List Page, (scanPages pages).2 = rowsSpec (pages.drop 1))
    ∧ (∀ (c p : Page) (rest : List Page), pageHasTable p = false →
        scanPages (c :: p :: rest) = scanPages (c :: rest))
    ∧ (∀ (t : Table) (r : List Page), rowsSpec (some t :: r) = t.drop 2 ++ rowsSpec r) := by
  refine ⟨fun p p' rest => rfl, ?_, ?_, fun t r => rfl⟩
  · intro pages
    rw [scanPages, foldl_scanStep_rows]
    rfl
  · intro c p rest hp
    show (p :: rest).foldl scanStep (none, []) = rest.foldl scanStep (none, [])
    rw [List.foldl_cons, scanStep_no_table _ p hp]

/-- Witness for `C8_row_assembly`: a concrete table-less page is skipped. -/
theorem C8_row_assembly_witness :
    scanPages [none, none, some [[some "A"], [none], [some "x"]]] =
      scanPages [none, some [[some "A"], [none], [some "x"]]] :=
  C8_row_assembly.2.2.1 none none [some [[some "A"], [none], [some "x"]]] rfl

/-- C1 (code evaluation at the failing input): on a document whose two
percentage columns differ for issuer AAAA (5.5 vs 6.5) and agree for
issuer BBBB (5.5 vs 5.5), the pipeline's entire return value is the
single full dataset `C1out` containing both issuers; the return type of
the embedded pipeline carries no second, changed-subset dataset, and no
changed-subset computation occurs anywhere in it. -/
theorem C1_single_dataset_no_filtered_view :
    parse_shareholder_pdf C1doc = Except.ok C1out ∧
    C1out.rows.length = 2 ∧
    getCell C1out 0 1 = Cell.txt "AAAA" ∧ getCell C1out 1 1 = Cell.txt "BBBB" ∧
    getCell C1out 0 6 = Cell.num (mkRat 11 2) ∧ getCell C1out 0 9 = Cell.num (mkRat 13 2) ∧
    getCell C1out 1 6 = Cell.num (mkRat 11 2) ∧ getCell C1out 1 9 = Cell.num (mkRat 11 2) :=
  ⟨by rfl, by rfl, by rfl, by rfl, by rfl, by rfl, by rfl, by rfl⟩

/-- C7: with fewer than two percentage columns the `perc_cols[-2]` lookup
fails with an `IndexError`, an error distinct from the cardinality
`ValueError` of frame creation; concretely, `C7doc` (one percentage
column) fails this way. -/
theorem C7_insufficient_percentage_columns :
    (∀ cols : List String, (percColsOf cols).length < 2 →
        selectPercPair cols = Except.error PyError.indexErrorListIndex)
    ∧ (∀ e w f : Nat, PyError.indexErrorListIndex ≠ PyError.valueErrorColumns e w f)
    ∧ parse_shareholder_pdf C7doc = Except.error PyError.indexErrorListIndex := by
  refine ⟨?_, fun e w f => by simp, by rfl⟩
  intro cols hlt
  rw [selectPercPair, if_neg]
  omega

/-- Witness for `C7_insufficient_percentage_columns` on a one-column
schema with no percentage column. -/
theorem C7_insufficient_percentage_columns_witness :
    (percColsOf ["No"]).length < 2 ∧
    selectPercPair ["No"] = Except.error PyError.indexErrorListIndex :=
  ⟨by decide, C7_insufficient_percentage_columns.1 ["No"] (by decide)⟩

/-- C5 counterexample: in `C5doc` the first assembled data row has 7
cells while the reconstructed schema has 8 names, yet the pipeline does
not fail — both rows are kept and the short one is silently padded (its
final cell becomes the coerced missing pad). -/
theorem C5_padding_counterexample :
    (scanPages C5doc).2.getD 0 [] =
      [some "1", some "11", some "11", some "1.5", some "11", some "11", some "2.5"] ∧
    ((scanPages C5doc).2.getD 0 []).length = 7 ∧
    (scanPages C5doc).1 = some (finalHeaderOf C5hdrB) ∧
    (finalHeaderOf C5hdrB).length = 8 ∧
    parse_shareholder_pdf C5doc = Except.ok C5out ∧
    C5out.rows.length = 2 ∧
    getCell C5out 0 7 = Cell.num 0 :=
  ⟨by rfl, by rfl, by rfl, by rfl, by rfl, by rfl, by rfl⟩

/-! ### Stage lemmas for a frame with no rows -/

theorem dropHeaderRows_nil (cols : List String) :
    dropHeaderRows ⟨cols, []⟩ = ⟨cols, []⟩ := by
  rw [dropHeaderRows]
  cases colIdx cols "No" <;> rfl

theorem ffillNamed_nil (cols : List String) (n : String) :
    ffillNamed ⟨cols, []⟩ n = ⟨cols, []⟩ := by
  rw [ffillNamed]
  cases colIdx cols n <;> rfl

theorem ffillAll_nil (cols : List String) : ffillAll ⟨cols, []⟩ = ⟨cols, []⟩ := by
  have hfil : cols_to_fill.filter (fun c => !(c == "No")) =
      ["Nama Emiten", "Nama Pemegang Saham", "Kebangsaan"] := by rfl
  simp [ffillAll, hfil, List.foldl, ffillNamed_nil]

theorem dropColsByName_nil (cols : List String) (names : List String) :
    dropColsByName ⟨cols, []⟩ names = ⟨cols.filter (fun c => !(names.contains c)), []⟩ := rfl

theorem coerceLast7_nil (cols : List String) :
    coerceLast7 ⟨cols, []⟩ = Except.ok ⟨cols, []⟩ := by
  simp [coerceLast7]

/-- Filtering the columns by a predicate that keeps every
percentage-marked name does not change the percentage column list. -/
theorem percColsOf_filter (cols : List String) (p : String → Bool)
    (hp : ∀ c, pyIn percMarker c = true → p c = true) :
    percColsOf (cols.filter p) = percColsOf cols := by
  simp only [percColsOf]
  induction cols with
  | nil => rfl
  | cons c cs ih =>
    rw [List.filter_cons]
    by_cases hpc : p c = true
    · rw [if_pos hpc, List.filter_cons, List.filter_cons, ih]
    · have hc : pyIn percMarker c = false := by
        cases h : pyIn percMarker c
        · rfl
        · exact absurd (hp c h) hpc
      rw [if_neg hpc, List.filter_cons, if_neg (by simp [hc]), ih]

/-- None of the dropped address column names is a percentage column. -/
theorem addressCols_not_perc :
    ∀ c, pyIn percMarker c = true → (addressCols.contains c) = false := by
  intro c hc
  cases hmem : addressCols.contains c
  · rfl
  · exfalso
    have hmem' : c ∈ addressCols := by
      rcases List.contains_iff_exists_mem_beq.mp hmem with ⟨a, ha, hbeq⟩
      have : c = a := eq_of_beq hbeq
      rw [this]; exact ha
    simp only [addressCols, List.mem_cons, List.not_mem_nil, or_false] at hmem'
    rcases hmem' with h | h | h <;> subst h <;> exact absurd hc (by decide)

theorem cleanDF_nil (cols : List String) : cleanDF ⟨cols, []⟩ = ⟨cols, []⟩ := rfl

theorem coerceNamed_nil (cols : List String) (n : String) :
    coerceNamed ⟨cols, []⟩ n = ⟨cols, []⟩ := rfl

theorem replaceBlank_nil (cols : List String) : replaceBlank ⟨cols, []⟩ = ⟨cols, []⟩ := rfl

theorem dropAllNaRows_nil (cols : List String) : dropAllNaRows ⟨cols, []⟩ = ⟨cols, []⟩ := rfl

/-- C6 counterexample: a document none of whose processed pages yields a
table leaves `final_header` unassigned, so the pipeline raises a
`NameError` instead of reporting a benign empty dataset. -/
theorem C6_no_table_counterexample :
    parse_shareholder_pdf [none, none] = Except.error PyError.nameErrorFinalHeader ∧
    benignEmpty (parse_shareholder_pdf [none, none]) = false :=
  ⟨by rfl, by rfl⟩

/-- C6 amended: when at least one processed page yields a table (so the
header is assigned), no data rows are accumulated, and the reconstructed
schema keeps at least two percentage columns, the pipeline does return a
benign empty dataset. -/
theorem C6_empty_document_amended :
    ∀ (pages : List Page) (h : List String),
      (scanPages pages).1 = some h → (scanPages pages).2 = [] →
      2 ≤ (percColsOf h).length →
      benignEmpty (parse_shareholder_pdf pages) = true := by
  intro pages h h1 h2 hp
  have hperc : percColsOf (h.filter (fun c => !(addressCols.contains c))) = percColsOf h :=
    percColsOf_filter h _ (fun c hc => by rw [addressCols_not_perc c hc]; rfl)
  have hsel : selectPercPair (h.filter (fun c => !(addressCols.contains c))) =
      Except.ok ((percColsOf h).getD ((percColsOf h).length - 2) "",
                 (percColsOf h).getD ((percColsOf h).length - 1) "") := by
    simp only [selectPercPair, hperc]
    rw [if_pos hp]
  simp only [parse_shareholder_pdf, h1, h2, mkDataFrame, List.isEmpty_nil, if_true,
    dropHeaderRows_nil, ffillAll_nil, dropColsByName_nil, cleanDF_nil, coerceLast7_nil,
    hsel, coerceNamed_nil, replaceBlank_nil, dropAllNaRows_nil, benignEmpty,
    List.isEmpty_nil]

/-- Witness for `C6_empty_document_amended` on a document whose only
table-bearing page carries just the two header rows. -/
theorem C6_empty_document_amended_witness :
    benignEmpty (parse_shareholder_pdf C6witDoc) = true :=
  C6_empty_document_amended C6witDoc
    ["Kepemilikan Per 01-JAN-2025 - Jumlah Saham",
     "Kepemilikan Per 01-JAN-2025 - Saham Gabungan Per Investor",
     "Kepemilikan Per 01-JAN-2025 - Persentase Kepemilikan Per Investor (%)",
     "Kepemilikan Per 02-FEB-2025 - Jumlah Saham",
     "Kepemilikan Per 02-FEB-2025 - Saham Gabungan Per Investor",
     "Kepemilikan Per 02-FEB-2025 - Persentase Kepemilikan Per Investor (%)"]
    rfl rfl (by decide)

/-- C5 amended: frame creation fails exactly when the maximal data-row
width differs from the schema length, the diagnostic carrying the schema
length, that maximal width, and the first row's length; rows shorter than
the maximal width are silently padded with missing cells instead of
failing. -/
theorem C5_cardinality_amended :
    ∀ (pages : List Page) (h : List String) (rows : List (List (Option String))),
      scanPages pages = (some h, rows) → rows ≠ [] →
      ((maxWidth rows ≠ h.length →
          parse_shareholder_pdf pages =
            Except.error (PyError.valueErrorColumns h.length (maxWidth rows)
              (rows.headD []).length))
        ∧ (maxWidth rows = h.length →
          mkDataFrame rows h = Except.ok ⟨h, rows.map (padRow h.length)⟩)) := by
  intro pages h rows hscan hne
  have h1 : (scanPages pages).1 = some h := by rw [hscan]
  have h2 : (scanPages pages).2 = rows := by rw [hscan]
  have hemp : rows.isEmpty = false := by
    cases rows with
    | nil => exact absurd rfl hne
    | cons a b => rfl
  constructor
  · intro hw
    have hmk : mkDataFrame rows h =
        Except.error (PyError.valueErrorColumns h.length (maxWidth rows)
          (rows.headD []).length) := by
      simp [mkDataFrame, hemp, hw]
    simp only [parse_shareholder_pdf, h1, h2, hmk]
  · intro hw
    simp [mkDataFrame, hemp, hw]

/-- Witness for `C5_cardinality_amended`: a document whose only data row
is wider (2 cells) than the one-name schema fails with the `ValueError`
diagnostic `(1, 2, 2)`. -/
theorem C5_cardinality_amended_witness :
    parse_shareholder_pdf C5wdoc = Except.error (PyError.valueErrorColumns 1 2 2) :=
  (C5_cardinality_amended C5wdoc ["A"] [[some "x", some "y"]] rfl (by decide)).1 (by decide)

/-! ### Lemmas on forward fill -/

theorem lastNonMissing_cons (i : Nat) (carry : Option Cell) (r : List Cell)
    (pre : List (List Cell)) :
    lastNonMissing i carry (r :: pre) =
      lastNonMissing i
        (if isMissing (r.getD i Cell.pyNone) then carry else some (r.getD i Cell.pyNone))
        pre := rfl

theorem ffillGo_length (i : Nat) :
    ∀ (rows : List (List Cell)) (carry : Option Cell),
      (ffillGo i carry rows).length = rows.length := by
  intro rows
  induction rows with
  | nil => intro carry; rfl
  | cons r rest ih =>
    intro carry
    simp only [ffillGo]
    by_cases hm : isMissing (r.getD i Cell.pyNone) = true
    · rw [if_pos hm]
      cases carry with
      | some prev => simp [ih]
      | none => simp [ih]
    · rw [if_neg hm]
      simp [ih]

theorem setCell_getD (v d : Cell) :
    ∀ (l : List Cell) (i : Nat), i < l.length → (l.set i v).getD i d = v := by
  intro l
  induction l with
  | nil => intro i hi; simp at hi
  | cons a t ih =>
    intro i hi
    cases i with
    | zero => rfl
    | succ j => exact ih j (by simpa using hi)

theorem ffillGo_getD (i : Nat) :
    ∀ (rows : List (List Cell)) (carry : Option Cell) (k : Nat), k < rows.length →
      (ffillGo i carry rows).getD k [] =
        (if isMissing ((rows.getD k []).getD i Cell.pyNone) then
          match lastNonMissing i carry (rows.take k) with
          | some v => (rows.getD k []).set i v
          | none => rows.getD k []
        else rows.getD k []) := by
  intro rows
  induction rows with
  | nil => intro carry k hk; simp at hk
  | cons r rest ih =>
    intro carry k hk
    cases k with
    | zero =>
      simp only [ffillGo, List.getD_cons_zero, List.take_zero, lastNonMissing]
      by_cases hm : isMissing (r.getD i Cell.pyNone) = true
      · rw [if_pos hm, if_pos hm]
        cases carry with
        | some prev => rfl
        | none => rfl
      · rw [if_neg hm, if_neg hm]
        rfl
    | succ k' =>
      have hk' : k' < rest.length := by simpa using hk
      simp only [List.getD_cons_succ, List.take_succ_cons, lastNonMissing_cons]
      by_cases hm : isMissing (r.getD i Cell.pyNone) = true
      · rw [if_pos hm]
        cases carry with
        | some prev =>
          have hstep : ffillGo i (some prev) (r :: rest) =
              r.set i prev :: ffillGo i (some prev) rest := by
            simp only [ffillGo]
            rw [if_pos hm]
          rw [hstep, List.getD_cons_succ, ih (some prev) k' hk']
        | none =>
          have hstep : ffillGo i none (r :: rest) = r :: ffillGo i none rest := by
            simp only [ffillGo]
            rw [if_pos hm]
          rw [hstep, List.getD_cons_succ, ih none k' hk']
      · rw [if_neg hm]
        have hstep : ffillGo i carry (r :: rest) =
            r :: ffillGo i (some (r.getD i Cell.pyNone)) rest := by
          simp only [ffillGo]
          rw [if_neg hm]
        rw [hstep, List.getD_cons_succ, ih (some (r.getD i Cell.pyNone)) k' hk']

theorem lastNonMissing_not_missing (i : Nat) :
    ∀ (pre : List (List Cell)) (carry : Option Cell),
      (∀ w, carry = some w → isMissing w = false) →
      ∀ v, lastNonMissing i carry pre = some v → isMissing v = false := by
  intro pre
  induction pre with
  | nil =>
    intro carry hc v hv
    exact hc v hv
  | cons r rest ih =>
    intro carry hc v hv
    rw [lastNonMissing_cons] at hv
    by_cases hm : isMissing (r.getD i Cell.pyNone) = true
    · rw [if_pos hm] at hv
      exact ih carry hc v hv
    · rw [if_neg hm] at hv
      refine ih _ ?_ v hv
      intro w hw
      have hw' : w = r.getD i Cell.pyNone := by
        cases hw
        rfl
      rw [hw']
      cases h : isMissing (r.getD i Cell.pyNone)
      · rfl
      · exact absurd h hm

/-- C9 counterexample: on `C9doc` the first data row's issuer name is
missing and no prior row exists, so after the whole pipeline (both
forward-fill passes included) the retained first row still has a missing
"Nama Emiten" cell. -/
theorem C9_missing_after_fill_counterexample :
    parse_shareholder_pdf C9doc = Except.ok C9out ∧
    C9out.cols.getD 1 "" = "Nama Emiten" ∧
    C9out.rows.length = 2 ∧
    getCell C9out 0 1 = Cell.na ∧
    isMissing (getCell C9out 0 1) = true :=
  ⟨by rfl, by rfl, by rfl, by rfl, by rfl⟩

/-- C9 amended: the forward-fill step replaces a missing cell by the
nearest prior non-missing value of the same column whenever one exists
(and such a replacement value is itself never missing); a missing cell
with no prior non-missing value is left untouched, so the filled columns
are non-missing only from the first non-missing value onward. -/
theorem C9_forward_fill_amended :
    ∀ (i : Nat) (rows : List (List Cell)) (k : Nat), k < rows.length →
      ((ffillCol i rows).length = rows.length
      ∧ (∀ v, lastNonMissing i none (rows.take k) = some v →
          (ffillCol i rows).getD k [] =
            (if isMissing ((rows.getD k []).getD i Cell.pyNone) then
              (rows.getD k []).set i v
            else rows.getD k []))
      ∧ (lastNonMissing i none (rows.take k) = none →
          (ffillCol i rows).getD k [] = rows.getD k [])
      ∧ (∀ v, lastNonMissing i none (rows.take k) = some v →
          i < (rows.getD k []).length →
          isMissing (((ffillCol i rows).getD k []).getD i Cell.pyNone) = false)) := by
  intro i rows k hk
  have hchar := ffillGo_getD i rows none k hk
  refine ⟨ffillGo_length i rows none, ?_, ?_, ?_⟩
  · intro v hv
    rw [ffillCol, hchar, hv]
  · intro hv
    rw [ffillCol, hchar, hv]
    by_cases hm : isMissing ((rows.getD k []).getD i Cell.pyNone) = true
    · rw [if_pos hm]
    · rw [if_neg hm]
  · intro v hv hi
    have hnm : isMissing v = false :=
      lastNonMissing_not_missing i (rows.take k) none (fun w hw => by cases hw) v hv
    rw [ffillCol, hchar, hv]
    by_cases hm : isMissing ((rows.getD k []).getD i Cell.pyNone) = true
    · rw [if_pos hm, setCell_getD v Cell.pyNone (rows.getD k []) i hi]
      exact hnm
    · rw [if_neg hm]
      cases h : isMissing ((rows.getD k []).getD i Cell.pyNone)
      · rfl
      · exact absurd h hm

/-- Witness for `C9_forward_fill_amended`: the missing cell of the second
row is filled with the first row's value. -/
theorem C9_forward_fill_amended_witness :
    (ffillCol 0 [[Cell.txt "A"], [Cell.na]]).getD 1 [] = [Cell.txt "A"] :=
  (((C9_forward_fill_amended 0 [[Cell.txt "A"], [Cell.na]] 1 (by decide)).2.1
    (Cell.txt "A") rfl).trans (by decide))

/-! ### Lemmas on numeric coercion -/

theorem coerceCell_isNum : ∀ c : Cell, isNumC (coerceCell c) = true := by
  intro c
  cases c with
  | pyNone => rfl
  | na => rfl
  | num v => rfl
  | txt v =>
    rw [coerceCell]
    cases parseNumeric v <;> rfl

theorem coerceCell_idem : ∀ c : Cell, coerceCell (coerceCell c) = coerceCell c := by
  intro c
  cases c with
  | pyNone => rfl
  | na => rfl
  | num v => rfl
  | txt v =>
    rw [coerceCell]
    cases parseNumeric v <;> rfl

theorem listMap_getD {α β : Type} (g : α → β) :
    ∀ (l : List α) (k : Nat) (d : α) (d' : β), k < l.length →
      (l.map g).getD k d' = g (l.getD k d) := by
  intro l
  induction l with
  | nil => intro k d d' hk; simp at hk
  | cons a t ih =>
    intro k d d' hk
    cases k with
    | zero => rfl
    | succ k' => exact ih k' d d' (by simpa using hk)

theorem zipMap_getD (f : String × Cell → Cell) :
    ∀ (cols : List String) (r : List Cell) (j : Nat), j < cols.length → j < r.length →
      ((cols.zip r).map f).getD j Cell.na = f (cols.getD j "", r.getD j Cell.na) := by
  intro cols
  induction cols with
  | nil => intro r j h1 h2; simp at h1
  | cons c cs ih =>
    intro r j h1 h2
    cases r with
    | nil => simp at h2
    | cons x xs =>
      cases j with
      | zero => rfl
      | succ j' => exact ih xs j' (by simpa using h1) (by simpa using h2)

theorem nodup_getD_inj (cols : List String) (hnd : cols.Nodup) (j p : Nat)
    (hj : j < cols.length) (hp : p < cols.length) :
    cols.getD j "" = cols.getD p "" ↔ j = p := by
  rw [List.getD_eq_getElem?_getD, List.getD_eq_getElem?_getD,
    List.getElem?_eq_getElem hj, List.getElem?_eq_getElem hp]
  simp only [Option.getD_some]
  constructor
  · intro h
    exact List.Nodup.getElem_inj_iff hnd |>.mp h
  · intro h
    subst h
    rfl

theorem listGetD_mem {α : Type} :
    ∀ (l : List α) (k : Nat) (d : α), k < l.length → l.getD k d ∈ l := by
  intro l
  induction l with
  | nil => intro k d hk; simp at hk
  | cons a t ih =>
    intro k d hk
    cases k with
    | zero => exact List.mem_cons_self a t
    | succ k' => exact List.mem_cons_of_mem a (ih k' d (by simpa using hk))

theorem coerceNamed_cols (df : DataFrame) (n : String) :
    (coerceNamed df n).cols = df.cols := rfl

theorem coerceNamed_rows_length (df : DataFrame) (n : String) :
    (coerceNamed df n).rows.length = df.rows.length := by
  simp [coerceNamed]

theorem coerceNamed_rect (df : DataFrame) (n : String) (h : Rect df) :
    Rect (coerceNamed df n) := by
  intro r hr
  simp only [coerceNamed] at hr
  rcases List.mem_map.mp hr with ⟨r0, hr0, rfl⟩
  have hlen := h r0 hr0
  simp [List.length_zip, hlen]
  rfl

theorem coerceNamed_getCell (df : DataFrame) (p : Nat) (hnd : df.cols.Nodup)
    (hp : p < df.cols.length) (hrect : Rect df) (k j : Nat)
    (hk : k < df.rows.length) (hj : j < df.cols.length) :
    getCell (coerceNamed df (df.cols.getD p "")) k j =
      (if j = p then coerceCell (getCell df k j) else getCell df k j) := by
  have hr : df.rows.getD k [] ∈ df.rows := listGetD_mem df.rows k [] hk
  have hlen : (df.rows.getD k []).length = df.cols.length := hrect _ hr
  have hjr : j < (df.rows.getD k []).length := by rw [hlen]; exact hj
  show ((df.rows.map _).getD k []).getD j Cell.na = _
  rw [listMap_getD _ df.rows k [] [] hk,
    zipMap_getD _ df.cols (df.rows.getD k []) j hj hjr]
  by_cases hjp : j = p
  · have hbeq : (df.cols.getD j "" == df.cols.getD p "") = true :=
      beq_iff_eq.mpr (by rw [hjp])
    rw [if_pos hjp, if_pos hbeq]
    rfl
  · have hne : ¬ df.cols.getD j "" = df.cols.getD p "" := by
      intro h
      exact hjp ((nodup_getD_inj df.cols hnd j p hj hp).mp h)
    have hbeq : (df.cols.getD j "" == df.cols.getD p "") = false :=
      beq_eq_false_iff_ne.mpr hne
    rw [if_neg hjp, hbeq]
    rfl

theorem coerceAtPositions_cols :
    ∀ (ps : List Nat) (df : DataFrame), (coerceAtPositions ps df).cols = df.cols := by
  intro ps
  induction ps with
  | nil => intro df; rfl
  | cons p rest ih =>
    intro df
    show (coerceAtPositions rest (coerceNamed df (df.cols.getD p ""))).cols = df.cols
    rw [ih]
    rfl

theorem coerceAtPositions_rows_length :
    ∀ (ps : List Nat) (df : DataFrame),
      (coerceAtPositions ps df).rows.length = df.rows.length := by
  intro ps
  induction ps with
  | nil => intro df; rfl
  | cons p rest ih =>
    intro df
    show (coerceAtPositions rest (coerceNamed df (df.cols.getD p ""))).rows.length = _
    rw [ih, coerceNamed_rows_length]

theorem coerceAtPositions_rect :
    ∀ (ps : List Nat) (df : DataFrame), Rect df → Rect (coerceAtPositions ps df) := by
  intro ps
  induction ps with
  | nil => intro df h; exact h
  | cons p rest ih =>
    intro df h
    exact ih _ (coerceNamed_rect df _ h)

theorem coerceAtPositions_getCell :
    ∀ (ps : List Nat) (df : DataFrame), df.cols.Nodup → Rect df →
      (∀ p2 ∈ ps, p2 < df.cols.length) →
      ∀ k j, k < df.rows.length → j < df.cols.length →
      getCell (coerceAtPositions ps df) k j =
        (if j ∈ ps then coerceCell (getCell df k j) else getCell df k j) := by
  intro ps
  induction ps with
  | nil =>
    intro df _ _ _ k j _ _
    simp [coerceAtPositions]
  | cons p rest ih =>
    intro df hnd hrect hps k j hk hj
    have hp : p < df.cols.length := hps p (List.mem_cons_self _ _)
    have hcell := coerceNamed_getCell df p hnd hp hrect k j hk hj
    have hstep : coerceAtPositions (p :: rest) df =
        coerceAtPositions rest (coerceNamed df (df.cols.getD p "")) := rfl
    have hk' : k < (coerceNamed df (df.cols.getD p "")).rows.length := by
      rw [coerceNamed_rows_length]; exact hk
    have hrest := ih (coerceNamed df (df.cols.getD p "")) hnd
      (coerceNamed_rect df _ hrect) (fun p2 h2 => hps p2 (List.mem_cons_of_mem _ h2))
      k j hk' hj
    rw [hstep, hrest, hcell]
    by_cases hjr : j ∈ rest
    · by_cases hjp : j = p
      · rw [if_pos hjr, if_pos hjp, if_pos (List.mem_cons.mpr (Or.inl hjp)),
          coerceCell_idem]
      · rw [if_pos hjr, if_neg hjp, if_pos (List.mem_cons.mpr (Or.inr hjr))]
    · by_cases hjp : j = p
      · rw [if_neg hjr, if_pos hjp, if_pos (List.mem_cons.mpr (Or.inl hjp))]
      · rw [if_neg hjr, if_neg hjp,
          if_neg (fun hmem => (List.mem_cons.mp hmem).elim hjp hjr)]

theorem foldlM_resolve :
    ∀ (idxs : List Int) (df : DataFrame),
      (∀ i ∈ idxs, 0 ≤ i ∧ i < (df.cols.length : Int)) →
      (List.foldlM (fun d i => do
          let j ← resolveIdx d.cols.length i
          pure (coerceNamed d (d.cols.getD j ""))) df idxs : Except PyError DataFrame) =
        Except.ok (idxs.foldl (fun d i => coerceNamed d (d.cols.getD i.toNat "")) df) := by
  intro idxs
  induction idxs with
  | nil => intro df _; rfl
  | cons i rest ih =>
    intro df h
    have hi := h i (List.mem_cons_self _ _)
    have hres : resolveIdx df.cols.length i = Except.ok i.toNat := by
      rw [resolveIdx, if_pos hi]
    rw [List.foldlM_cons]
    have hstep : (do
        let j ← resolveIdx df.cols.length i
        pure (coerceNamed df (df.cols.getD j "")) : Except PyError DataFrame) =
        Except.ok (coerceNamed df (df.cols.getD i.toNat "")) := by
      rw [hres]
      rfl
    rw [hstep]
    show List.foldlM _ (coerceNamed df (df.cols.getD i.toNat "")) rest = _
    rw [ih (coerceNamed df (df.cols.getD i.toNat ""))
      (fun i' hi' => h i' (List.mem_cons_of_mem _ hi'))]
    rfl

theorem pyRangeInt_seven (len : Nat) (_h7 : 7 ≤ len) :
    pyRangeInt ((len : Int) - 7) len =
      (List.range 7).map (fun t : Nat => (len : Int) - 7 + (t : Int)) := by
  have hn : ((len : Int) - ((len : Int) - 7)).toNat = 7 := by omega
  rw [pyRangeInt, hn]

theorem resolvedIdxs_seven (len : Nat) (h7 : 7 ≤ len) :
    resolvedIdxs len = (List.range 7).map (fun t : Nat => len - 7 + t) := by
  rw [resolvedIdxs, pyRangeInt_seven len h7, List.filterMap_map]
  have hpt : ∀ t ∈ List.range 7,
      ((fun i => (resolveIdx len i).toOption) ∘ fun t : Nat => (len : Int) - 7 + (t : Int)) t =
        some (len - 7 + t) := by
    intro t ht
    have ht7 : t < 7 := List.mem_range.mp ht
    have hlo : (0 : Int) ≤ (len : Int) - 7 + (t : Int) := by omega
    have hhi : (len : Int) - 7 + (t : Int) < (len : Int) := by omega
    show (resolveIdx len ((len : Int) - 7 + (t : Int))).toOption = some (len - 7 + t)
    rw [resolveIdx, if_pos ⟨hlo, hhi⟩]
    show some ((len : Int) - 7 + (t : Int)).toNat = some (len - 7 + t)
    congr 1
    omega
  rw [List.filterMap_congr hpt]
  rw [show (fun t : Nat => some (len - 7 + t)) =
    (some ∘ fun t : Nat => len - 7 + t) from rfl]
  rw [List.filterMap_eq_map]

theorem coerceLast7_eq (df : DataFrame) (h7 : 7 ≤ df.cols.length) (hne : df.rows ≠ []) :
    coerceLast7 df = Except.ok (coerceAtPositions (resolvedIdxs df.cols.length) df) := by
  have hemp : df.rows.isEmpty = false := by
    cases h : df.rows with
    | nil => exact absurd h hne
    | cons a b => rfl
  rw [coerceLast7, if_neg (by rw [hemp]; exact Bool.false_ne_true)]
  rw [foldlM_resolve (pyRangeInt ((df.cols.length : Int) - 7) df.cols.length) df ?bound]
  case bound =>
    intro i hi
    rw [pyRangeInt_seven _ h7] at hi
    rcases List.mem_map.mp hi with ⟨t, ht, rfl⟩
    have ht7 : t < 7 := List.mem_range.mp ht
    constructor <;> omega
  congr 1
  rw [resolvedIdxs_seven _ h7, pyRangeInt_seven _ h7, coerceAtPositions,
    List.foldl_map, List.foldl_map]
  have hfun : (fun (d : DataFrame) (t : Nat) =>
      coerceNamed d (d.cols.getD ((df.cols.length : Int) - 7 + (t : Int)).toNat "")) =
      (fun (d : DataFrame) (t : Nat) =>
        coerceNamed d (d.cols.getD (df.cols.length - 7 + t) "")) := by
    funext d t
    have : ((df.cols.length : Int) - 7 + (t : Int)).toNat = df.cols.length - 7 + t := by
      omega
    rw [this]
  rw [hfun]

theorem cleanDF_rect (df : DataFrame) (h : Rect df) : Rect (cleanDF df) := by
  intro r hr
  simp only [cleanDF] at hr
  rcases List.mem_map.mp hr with ⟨r0, hr0, rfl⟩
  simpa using h r0 hr0

/-- C4: numeric coercion is total and always yields a numeric cell (never
text, never missing, never an exception); unparseable values become
exactly zero; the cleaning chain maps whitespace-only, "None", "none" and
empty values to missing and removes commas and percent signs; and after
cleaning and coercion every cell in the trailing 7-column block of a
(unique-name, rectangular, at-least-7-column) frame is numeric. -/
theorem C4_numeric_coercion_total :
    (∀ c : Cell, isNumC (coerceCell c) = true)
    ∧ (∀ v : String, parseNumeric v = none → coerceCell (Cell.txt v) = Cell.num 0)
    ∧ (∀ s : String, (pyStrip s = "" ∨ pyStrip s = "None" ∨ pyStrip s = "none") →
        cleanCell (Cell.txt s) = Cell.na)
    ∧ cleanCell (Cell.txt " 1,234.5% ") = Cell.txt "1234.5"
    ∧ (∀ (cols : List String) (rows : List (List Cell)) (df' : DataFrame),
        cols.Nodup → (∀ r ∈ rows, r.length = cols.length) → 7 ≤ cols.length →
        coerceLast7 (cleanDF ⟨cols, rows⟩) = Except.ok df' →
        ∀ k j, k < df'.rows.length → cols.length - 7 ≤ j → j < cols.length →
          isNumC (getCell df' k j) = true) := by
  refine ⟨coerceCell_isNum, ?_, ?_, by rfl, ?_⟩
  · intro v hv
    rw [coerceCell, hv]
  · intro s hs
    rcases hs with h | h | h <;> simp [cleanCell, pyAstypeStr, h]
  · intro cols rows df' hnd hrect h7 hok k j hk hj1 hj2
    by_cases hrows : rows = []
    · subst hrows
      rw [show cleanDF ⟨cols, []⟩ = ⟨cols, []⟩ from rfl, coerceLast7_nil] at hok
      injection hok with hok'
      subst hok'
      simp at hk
    · have hne : (cleanDF ⟨cols, rows⟩).rows ≠ [] := by
        simp only [cleanDF]
        simpa using hrows
      have hrect0 : Rect (⟨cols, rows⟩ : DataFrame) := hrect
      have hrect' : Rect (cleanDF ⟨cols, rows⟩) := cleanDF_rect _ hrect0
      rw [coerceLast7_eq _ h7 hne] at hok
      injection hok with hok'
      subst hok'
      simp only [show (cleanDF (⟨cols, rows⟩ : DataFrame)).cols = cols from rfl] at hk ⊢
      have hps : ∀ p2 ∈ resolvedIdxs cols.length, p2 < cols.length := by
        rw [resolvedIdxs_seven _ h7]
        intro p2 hp2
        rcases List.mem_map.mp hp2 with ⟨t, ht, rfl⟩
        have ht7 : t < 7 := List.mem_range.mp ht
        omega
      have hkk : k < (cleanDF ⟨cols, rows⟩).rows.length := by
        rw [coerceAtPositions_rows_length] at hk
        exact hk
      rw [coerceAtPositions_getCell (resolvedIdxs cols.length)
        (cleanDF ⟨cols, rows⟩) hnd hrect' hps k j hkk hj2]
      have hmem : j ∈ resolvedIdxs cols.length := by
        rw [resolvedIdxs_seven _ h7]
        exact List.mem_map.mpr ⟨j - (cols.length - 7),
          List.mem_range.mpr (by omega), by omega⟩
      rw [if_pos hmem]
      exact coerceCell_isNum _

/-- Witness for `C4_numeric_coercion_total`: "abc" does not parse and is
coerced to exactly zero. -/
theorem C4_numeric_coercion_total_witness :
    parseNumeric "abc" = none ∧ coerceCell (Cell.txt "abc") = Cell.num 0 :=
  ⟨rfl, C4_numeric_coercion_total.2.1 "abc" rfl⟩

/-- C10: the numeric-coercion block targets exactly the last 7 column
positions of the schema whenever it has at least 7 columns — a purely
positional choice depending only on the column count, not on how many
date groups the header produced; all cells before that trailing window
are left exactly as they were (their cleaned text), while every cell in
the window is coerced; and for a narrower schema (4 to 6 columns) the
negative-index arithmetic wraps around and selects position 0, a column
outside any trailing block. -/
theorem C10_last7_by_position :
    (∀ len : Nat, 7 ≤ len →
        resolvedIdxs len = (List.range 7).map (fun t : Nat => len - 7 + t))
    ∧ (∀ (cols : List String) (rows : List (List Cell)) (df' : DataFrame),
        cols.Nodup → (∀ r ∈ rows, r.length = cols.length) → 7 ≤ cols.length →
        coerceLast7 ⟨cols, rows⟩ = Except.ok df' →
        df'.cols = cols ∧ df'.rows.length = rows.length ∧
        (∀ k j, k < rows.length → j < cols.length - 7 →
          getCell df' k j = getCell ⟨cols, rows⟩ k j) ∧
        (∀ k j, k < rows.length → cols.length - 7 ≤ j → j < cols.length →
          getCell df' k j = coerceCell (getCell ⟨cols, rows⟩ k j)))
    ∧ (∀ len : Nat, 4 ≤ len → len < 7 → 0 ∈ resolvedIdxs len) := by
  refine ⟨resolvedIdxs_seven, ?_, ?_⟩
  · intro cols rows df' hnd hrect h7 hok
    by_cases hrows : rows = []
    · subst hrows
      rw [coerceLast7_nil] at hok
      injection hok with hok'
      subst hok'
      exact ⟨rfl, rfl, fun k j hk _ => by simp at hk, fun k j hk _ _ => by simp at hk⟩
    · have hne : (⟨cols, rows⟩ : DataFrame).rows ≠ [] := hrows
      rw [coerceLast7_eq _ h7 hne] at hok
      injection hok with hok'
      subst hok'
      have hps : ∀ p2 ∈ resolvedIdxs cols.length, p2 < cols.length := by
        rw [resolvedIdxs_seven _ h7]
        intro p2 hp2
        rcases List.mem_map.mp hp2 with ⟨t, ht, rfl⟩
        have ht7 : t < 7 := List.mem_range.mp ht
        omega
      refine ⟨coerceAtPositions_cols _ _, coerceAtPositions_rows_length _ _, ?_, ?_⟩
      · intro k j hk hj
        rw [coerceAtPositions_getCell (resolvedIdxs cols.length)
          ⟨cols, rows⟩ hnd hrect hps k j hk (show j < cols.length by omega)]
        have hnotmem : j ∉ resolvedIdxs cols.length := by
          rw [resolvedIdxs_seven _ h7]
          intro hmem
          rcases List.mem_map.mp hmem with ⟨t, ht, hjt⟩
          have ht7 : t < 7 := List.mem_range.mp ht
          omega
        rw [if_neg hnotmem]
      · intro k j hk hj1 hj2
        rw [coerceAtPositions_getCell (resolvedIdxs cols.length)
          ⟨cols, rows⟩ hnd hrect hps k j hk hj2]
        have hmem : j ∈ resolvedIdxs cols.length := by
          rw [resolvedIdxs_seven _ h7]
          exact List.mem_map.mpr ⟨j - (cols.length - 7),
            List.mem_range.mpr (by omega), by omega⟩
        rw [if_pos hmem]
  · intro len h4 h7
    rw [resolvedIdxs]
    refine List.mem_filterMap.mpr ⟨0, ?_, ?_⟩
    · rw [pyRangeInt]
      refine List.mem_map.mpr ⟨7 - len, List.mem_range.mpr (by omega), by omega⟩
    · rw [resolveIdx, if_pos ⟨le_refl 0, by omega⟩]
      rfl

/-- Witness for `C10_last7_by_position`: with 9 columns the coerced
positions are exactly 2..8, and with 5 columns position 0 is selected. -/
theorem C10_last7_by_position_witness :
    resolvedIdxs 9 = (List.range 7).map (fun t : Nat => 9 - 7 + t) ∧
    0 ∈ resolvedIdxs 5 :=
  ⟨C10_last7_by_position.1 9 (by decide), C10_last7_by_position.2.2 5 (by decide) (by decide)⟩
